import Mathlib

/-
Shallow embedding of src/MFDFA/singspect.py.

Modelling conventions:
- numpy double entries are idealised as rationals for the data that is only
  compared and filtered (moment orders, matrix entries, lags), and as real
  numbers once logarithms and least-squares fits enter.
- a 1-D numpy array is a Lean list; a 2-D array is a rectangular list of
  rows together with its column count.
- numpy exceptions are the error branch of Except; distinct ValueError
  messages are distinct constructors.
- numpy.polynomial.polynomial.polyfit(x, y, 1)[1] is the ordinary
  least-squares slope, written in closed form.
-/

namespace MFDFA

/-- A numpy floating-point entry: a finite value (idealised as a rational)
or one of the non-finite IEEE values. -/
inductive NpVal where
  | num : ℚ → NpVal
  | nan : NpVal
  | posinf : NpVal
  | neginf : NpVal
  deriving DecidableEq

/-- Whether a numpy entry is finite. -/
def NpVal.isFinite : NpVal → Bool
  | NpVal.num _ => true
  | _ => false

/-- The finite payload of a numpy entry, when there is one. -/
def NpVal.toRat : NpVal → Option ℚ
  | NpVal.num x => some x
  | _ => none

/-- Errors raised by singspect.py (all are numpy or Python exceptions;
distinct messages are kept as distinct constructors). -/
inductive Err where
  | domainError
  | dimMismatch
  | indexError
  | gradientError
  deriving DecidableEq

/-- np.asarray_chkfinite(q, dtype=float): convert to a flat float array,
raising ValueError when any entry is NaN or infinite. -/
def chkfinite (q : List NpVal) : Except Err (List ℚ) :=
  if q.all NpVal.isFinite then Except.ok (q.filterMap NpVal.toRat)
  else Except.error Err.domainError

/-- The keep-predicate of _clean_q: (q < -.1) + (q > .1). -/
def keepQ (x : ℚ) : Bool :=
  decide (x < -(1 / 10)) || decide ((1 / 10 : ℚ) < x)

/-- _clean_q: validate finiteness, convert to floats, drop every entry v
with -0.1 <= v <= 0.1; the final flatten is the identity on 1-D input. -/
def clean_q (q : List NpVal) : Except Err (List ℚ) :=
  match chkfinite q with
  | Except.error e => Except.error e
  | Except.ok qf => Except.ok (qf.filter keepQ)

/-- Normalisation of one Python slice bound for a sequence of length n:
negative indices count from the end, then the bound is clipped to [0, n]. -/
def pyIndexNorm (n : ℕ) (i : ℤ) : ℕ :=
  (if i < 0 then i + n else i).toNat.min n

/-- Python basic slicing xs[lo:hi] on a 1-D sequence (also what numpy does
along the first axis): missing bounds default to the ends. -/
def pySlice {α : Type} (xs : List α) (lo hi : Option ℤ) : List α :=
  let a := match lo with
    | none => 0
    | some i => pyIndexNorm xs.length i
  let b := match hi with
    | none => xs.length
    | some i => pyIndexNorm xs.length i
  (xs.drop a).take (b - a)

/-- A 2-D numpy array: a rectangular list of rows with its column count. -/
structure NpMatrix where
  rows : List (List ℚ)
  ncols : ℕ
  rect : ∀ r ∈ rows, r.length = ncols

/-- The default fit range substituted by the three public operations when
both limits are unset: [1, lag.size // 2]. -/
def defaultLim (lag : List ℕ) (lim : Option ℤ × Option ℤ) : Option ℤ × Option ℤ :=
  match lim with
  | (none, none) => (some 1, some ((lag.length / 2 : ℕ) : ℤ))
  | l => l

/-- Slope coefficient of the degree-1 least-squares fit of y against x,
numpy.polynomial.polynomial.polyfit(x, y, 1)[1] in closed form. -/
noncomputable def olsSlope (x y : List ℝ) : ℝ :=
  ((x.length : ℝ) * (List.zipWith (fun a b => a * b) x y).sum - x.sum * y.sum) /
    ((x.length : ℝ) * (x.map fun a => a * a).sum - x.sum * x.sum)

/-- The part of _slopes after the default-limit substitution: clean q,
re-coerce it with asarray_chkfinite, check the column count of the
fluctuation matrix against the cleaned q, then fit log(mfdfa column) against
log(lag) over the slice [lim.1 : lim.2], one slope per cleaned q entry. -/
noncomputable def fitSlopes (lag : List ℕ) (mfdfa : NpMatrix) (q : List NpVal)
    (lim : Option ℤ × Option ℤ) : Except Err (List ℝ) :=
  match clean_q q with
  | Except.error e => Except.error e
  | Except.ok q1 =>
    match chkfinite (q1.map NpVal.num) with
    | Except.error e => Except.error e
    | Except.ok q2 =>
      if mfdfa.ncols ≠ q2.length then Except.error Err.dimMismatch
      else Except.ok ((List.range q2.length).map fun i =>
        olsSlope ((pySlice lag lim.1 lim.2).map fun t : ℕ => Real.log (t : ℝ))
          ((pySlice mfdfa.rows lim.1 lim.2).map fun r : List ℚ => Real.log ((r.getD i 0 : ℝ))))

/-- _slopes: when both limits are unset it substitutes the pair
[lag[1], lag[lag.size // 2]] (the lag VALUES at those positions, used as
slice indices), indexing that needs lag to hold at least 2 entries;
otherwise the given pair is used as is. The unused interpolate argument is
kept to mirror the source signature. -/
noncomputable def slopes (lag : List ℕ) (mfdfa : NpMatrix) (q : List NpVal)
    (lim : Option ℤ × Option ℤ) (interpolate : ℤ) : Except Err (List ℝ) :=
  match lim with
  | (none, none) =>
      if 2 ≤ lag.length then
        fitSlopes lag mfdfa q
          (some ((lag.getD 1 0 : ℕ) : ℤ), some ((lag.getD (lag.length / 2) 0 : ℕ) : ℤ))
      else Except.error Err.indexError
  | l => fitSlopes lag mfdfa q l

/-- scaling_exponents: substitute the default fit range, clean q, get the
slopes over the cleaned q, and return (cleaned q, q * slopes - 1). -/
noncomputable def scaling_exponents (lag : List ℕ) (mfdfa : NpMatrix) (q : List NpVal)
    (lim : Option ℤ × Option ℤ) (interpolate : ℤ) : Except Err (List ℚ × List ℝ) :=
  match clean_q q with
  | Except.error e => Except.error e
  | Except.ok qc =>
    match slopes lag mfdfa (qc.map NpVal.num) (defaultLim lag lim) interpolate with
    | Except.error e => Except.error e
    | Except.ok s => Except.ok (qc, List.zipWith (fun (a : ℚ) (h : ℝ) => (a : ℝ) * h - 1) qc s)

/-- hurst_exponents: substitute the default fit range, clean q, and return
(cleaned q, slopes) unmodified. -/
noncomputable def hurst_exponents (lag : List ℕ) (mfdfa : NpMatrix) (q : List NpVal)
    (lim : Option ℤ × Option ℤ) (interpolate : ℤ) : Except Err (List ℚ × List ℝ) :=
  match clean_q q with
  | Except.error e => Except.error e
  | Except.ok qc =>
    match slopes lag mfdfa (qc.map NpVal.num) (defaultLim lag lim) interpolate with
    | Except.error e => Except.error e
    | Except.ok s => Except.ok (qc, s)

/-- np.gradient with unit spacing: one-sided differences at the two ends,
central differences in the interior; at least 2 points are required. -/
noncomputable def npGradient (y : List ℝ) : Except Err (List ℝ) :=
  if y.length < 2 then Except.error Err.gradientError
  else Except.ok ((List.range y.length).map fun i =>
    if i = 0 then y.getD 1 0 - y.getD 0 0
    else if i = y.length - 1 then y.getD i 0 - y.getD (i - 1) 0
    else (y.getD (i + 1) 0 - y.getD (i - 1) 0) / 2)

/-- _falpha: the singularity spectrum f = q * alpha - tau, element-wise. -/
noncomputable def falpha (tau alpha q : List ℝ) : List ℝ :=
  List.zipWith (fun qa t => qa - t) (List.zipWith (fun a b => a * b) q alpha) tau

/-- singularity_spectrum: substitute the default fit range, clean q, obtain
tau from scaling_exponents over the cleaned q, set alpha to the quotient of
the two unit-spacing gradients of tau and q, and f to _falpha. -/
noncomputable def singularity_spectrum (lag : List ℕ) (mfdfa : NpMatrix) (q : List NpVal)
    (lim : Option ℤ × Option ℤ) (interpolate : ℤ) : Except Err (List ℝ × List ℝ) :=
  match clean_q q with
  | Except.error e => Except.error e
  | Except.ok qc =>
    match scaling_exponents lag mfdfa (qc.map NpVal.num) (defaultLim lag lim) interpolate with
    | Except.error e => Except.error e
    | Except.ok p =>
      match npGradient p.2 with
      | Except.error e => Except.error e
      | Except.ok gt =>
        match npGradient (qc.map fun a : ℚ => (a : ℝ)) with
        | Except.error e => Except.error e
        | Except.ok gq =>
          let alpha := List.zipWith (fun a b => a / b) gt gq
          Except.ok (alpha, falpha p.2 alpha (qc.map fun a : ℚ => (a : ℝ)))

/-! Basic lemmas about the cleaning layer. -/

lemma filterMap_toRat_map_num (l : List ℚ) :
    (l.map NpVal.num).filterMap NpVal.toRat = l := by
  induction l with
  | nil => rfl
  | cons a t ih => simp [NpVal.toRat, ih]

lemma all_isFinite_map_num (l : List ℚ) :
    (l.map NpVal.num).all NpVal.isFinite = true := by
  simp [List.all_eq_true, NpVal.isFinite]

lemma chkfinite_map_num (l : List ℚ) : chkfinite (l.map NpVal.num) = Except.ok l := by
  simp only [chkfinite, all_isFinite_map_num, filterMap_toRat_map_num]
  simp

lemma clean_q_map_num (l : List ℚ) :
    clean_q (l.map NpVal.num) = Except.ok (l.filter keepQ) := by
  simp [clean_q, chkfinite_map_num]

lemma clean_q_ok_keep {q : List NpVal} {qc : List ℚ} (h : clean_q q = Except.ok qc) :
    ∀ x ∈ qc, keepQ x = true := by
  unfold clean_q at h
  cases hc : chkfinite q with
  | error e => rw [hc] at h; cases h
  | ok qf =>
      rw [hc] at h
      have hqc : qf.filter keepQ = qc := by
        simpa using h
      subst hqc
      exact fun x hx => List.of_mem_filter hx

lemma clean_q_idem {q : List NpVal} {qc : List ℚ} (h : clean_q q = Except.ok qc) :
    clean_q (qc.map NpVal.num) = Except.ok qc := by
  rw [clean_q_map_num, List.filter_eq_self.mpr (clean_q_ok_keep h)]

lemma clean_q_eq_ite (q : List NpVal) :
    clean_q q = if q.all NpVal.isFinite then
        Except.ok ((q.filterMap NpVal.toRat).filter keepQ)
      else Except.error Err.domainError := by
  cases hb : q.all NpVal.isFinite <;> simp [clean_q, chkfinite, hb]

lemma clean_q_domainError_iff (q : List NpVal) :
    clean_q q = Except.error Err.domainError ↔ q.all NpVal.isFinite = false := by
  cases hb : q.all NpVal.isFinite <;> simp [clean_q, chkfinite, hb]

/-! Basic lemmas about limit substitution and the Slope Estimator. -/

lemma slopes_defaultLim (lag : List ℕ) (M : NpMatrix) (q : List NpVal)
    (lim : Option ℤ × Option ℤ) (itp : ℤ) :
    slopes lag M q (defaultLim lag lim) itp = fitSlopes lag M q (defaultLim lag lim) := by
  rcases lim with ⟨a, b⟩
  cases a <;> cases b <;> rfl

lemma defaultLim_idem (lag : List ℕ) (lim : Option ℤ × Option ℤ) :
    defaultLim lag (defaultLim lag lim) = defaultLim lag lim := by
  rcases lim with ⟨a, b⟩
  cases a <;> cases b <;> rfl

lemma fitSlopes_of_clean (lag : List ℕ) (M : NpMatrix) {q : List NpVal}
    (lim : Option ℤ × Option ℤ) {qc : List ℚ}
    (h : clean_q q = Except.ok qc) (hdim : M.ncols = qc.length) :
    fitSlopes lag M q lim = Except.ok ((List.range qc.length).map fun i =>
      olsSlope ((pySlice lag lim.1 lim.2).map fun t : ℕ => Real.log (t : ℝ))
        ((pySlice M.rows lim.1 lim.2).map fun r : List ℚ => Real.log ((r.getD i 0 : ℝ)))) := by
  simp [fitSlopes, h, chkfinite_map_num, hdim]

lemma fitSlopes_dimErr (lag : List ℕ) (M : NpMatrix) {q : List NpVal}
    (lim : Option ℤ × Option ℤ) {qc : List ℚ}
    (h : clean_q q = Except.ok qc) (hdim : M.ncols ≠ qc.length) :
    fitSlopes lag M q lim = Except.error Err.dimMismatch := by
  simp [fitSlopes, h, chkfinite_map_num, hdim]

lemma fitSlopes_domErr {lag : List ℕ} {M : NpMatrix} {q : List NpVal}
    {lim : Option ℤ × Option ℤ} (h : clean_q q = Except.error Err.domainError) :
    fitSlopes lag M q lim = Except.error Err.domainError := by
  simp [fitSlopes, h]

lemma fitSlopes_congr_clean {q : List NpVal} {qc : List ℚ} (h : clean_q q = Except.ok qc)
    {lag : List ℕ} {M : NpMatrix} {lim : Option ℤ × Option ℤ} :
    fitSlopes lag M q lim = fitSlopes lag M (qc.map NpVal.num) lim := by
  simp [fitSlopes, h, clean_q_idem h]

lemma slopes_of_ne_both_none {lim : Option ℤ × Option ℤ} (h : lim ≠ (none, none))
    (lag : List ℕ) (M : NpMatrix) (q : List NpVal) (itp : ℤ) :
    slopes lag M q lim itp = fitSlopes lag M q lim := by
  rcases lim with ⟨a, b⟩
  cases a <;> cases b <;> first | rfl | exact absurd rfl h

/-! Characterization of the two exponent operations. -/

lemma scaling_exponents_spec (lag : List ℕ) (M : NpMatrix) {q : List NpVal}
    (lim : Option ℤ × Option ℤ) (itp : ℤ) {qc : List ℚ}
    (hq : clean_q q = Except.ok qc) (hdim : M.ncols = qc.length) :
    ∃ s : List ℝ, slopes lag M q (defaultLim lag lim) itp = Except.ok s ∧
      s.length = qc.length ∧
      scaling_exponents lag M q lim itp =
        Except.ok (qc, List.zipWith (fun (a : ℚ) (h : ℝ) => (a : ℝ) * h - 1) qc s) := by
  have hidem := clean_q_idem hq
  have h1 := fitSlopes_of_clean lag M (defaultLim lag lim) hq hdim
  have h2 := fitSlopes_of_clean lag M (defaultLim lag lim) hidem hdim
  exact ⟨_, (slopes_defaultLim lag M q lim itp).trans h1, by simp,
    by simp only [scaling_exponents, hq, slopes_defaultLim, h2]⟩

lemma hurst_exponents_spec (lag : List ℕ) (M : NpMatrix) {q : List NpVal}
    (lim : Option ℤ × Option ℤ) (itp : ℤ) {qc : List ℚ}
    (hq : clean_q q = Except.ok qc) (hdim : M.ncols = qc.length) :
    ∃ s : List ℝ, slopes lag M q (defaultLim lag lim) itp = Except.ok s ∧
      s.length = qc.length ∧
      hurst_exponents lag M q lim itp = Except.ok (qc, s) := by
  have hidem := clean_q_idem hq
  have h1 := fitSlopes_of_clean lag M (defaultLim lag lim) hq hdim
  have h2 := fitSlopes_of_clean lag M (defaultLim lag lim) hidem hdim
  exact ⟨_, (slopes_defaultLim lag M q lim itp).trans h1, by simp,
    by simp only [hurst_exponents, hq, slopes_defaultLim, h2]⟩

/-! Indexing lemmas. -/

lemma getD_range_map (f : ℕ → ℝ) (n i : ℕ) (h : i < n) :
    ((List.range n).map f).getD i 0 = f i := by
  have hl : i < ((List.range n).map f).length := by simpa using h
  rw [List.getD_eq_getElem?_getD, List.getElem?_eq_getElem hl]
  simp

lemma getD_zipWith (f : ℝ → ℝ → ℝ) (a b : List ℝ) (i : ℕ)
    (h1 : i < a.length) (h2 : i < b.length) :
    (List.zipWith f a b).getD i 0 = f (a.getD i 0) (b.getD i 0) := by
  have hl : i < (List.zipWith f a b).length := by
    rw [List.length_zipWith]
    omega
  rw [List.getD_eq_getElem?_getD, List.getElem?_eq_getElem hl, List.getElem_zipWith]
  rw [List.getD_eq_getElem?_getD, List.getElem?_eq_getElem h1]
  rw [List.getD_eq_getElem?_getD, List.getElem?_eq_getElem h2]
  simp

lemma getD_map_ratCast (l : List ℚ) (i : ℕ) (h : i < l.length) :
    ((l.map fun a : ℚ => (a : ℝ)).getD i 0) = ((l.getD i 0 : ℚ) : ℝ) := by
  have hl : i < ((l.map fun a : ℚ => (a : ℝ)).length) := by simpa using h
  rw [List.getD_eq_getElem?_getD, List.getElem?_eq_getElem hl, List.getElem_map]
  rw [List.getD_eq_getElem?_getD, List.getElem?_eq_getElem h]
  simp

/-! Gradient lemmas. -/

lemma npGradient_ok {y : List ℝ} (h : 2 ≤ y.length) :
    npGradient y = Except.ok ((List.range y.length).map fun i =>
      if i = 0 then y.getD 1 0 - y.getD 0 0
      else if i = y.length - 1 then y.getD i 0 - y.getD (i - 1) 0
      else (y.getD (i + 1) 0 - y.getD (i - 1) 0) / 2) := by
  rw [npGradient, if_neg (by omega)]

lemma npGradient_err {y : List ℝ} (h : y.length < 2) :
    npGradient y = Except.error Err.gradientError := by
  rw [npGradient, if_pos h]

/-- Characterization of singularity_spectrum when all checks pass: tau is the
scaling-exponent output, alpha the quotient of the two unit-spacing gradients,
and f the Legendre transform of tau. -/
lemma singularity_spectrum_spec {lag : List ℕ} {M : NpMatrix} {q : List NpVal}
    {lim : Option ℤ × Option ℤ} {itp : ℤ} {qc : List ℚ}
    (hq : clean_q q = Except.ok qc) (hdim : M.ncols = qc.length)
    (h2 : 2 ≤ qc.length) :
    ∃ tau gt gq : List ℝ,
      scaling_exponents lag M q lim itp = Except.ok (qc, tau) ∧
      tau.length = qc.length ∧
      npGradient tau = Except.ok gt ∧
      npGradient (qc.map fun a : ℚ => (a : ℝ)) = Except.ok gq ∧
      singularity_spectrum lag M q lim itp =
        Except.ok (List.zipWith (fun a b => a / b) gt gq,
          falpha tau (List.zipWith (fun a b => a / b) gt gq)
            (qc.map fun a : ℚ => (a : ℝ))) := by
  have hidem := clean_q_idem hq
  obtain ⟨s, hs, hslen, hsc⟩ := scaling_exponents_spec lag M lim itp hq hdim
  obtain ⟨s2, hs2, hs2len, hsc2⟩ :=
    scaling_exponents_spec lag M (defaultLim lag lim) itp hidem hdim
  have htaulen : (List.zipWith (fun (a : ℚ) (h : ℝ) => (a : ℝ) * h - 1) qc s).length = qc.length := by
    rw [List.length_zipWith]
    omega
  have htaulen2 : (List.zipWith (fun (a : ℚ) (h : ℝ) => (a : ℝ) * h - 1) qc s2).length = qc.length := by
    rw [List.length_zipWith]
    omega
  -- the internal call of singularity_spectrum agrees with the external one
  have hsame : s = s2 := by
    rw [slopes_defaultLim] at hs hs2
    rw [defaultLim_idem] at hs2
    rw [fitSlopes_congr_clean hq] at hs
    rw [hs] at hs2
    exact Except.ok.inj hs2
  subst hsame
  have hg1 : npGradient (List.zipWith (fun (a : ℚ) (h : ℝ) => (a : ℝ) * h - 1) qc s) =
      Except.ok _ := npGradient_ok (by omega)
  have hg2 : npGradient (qc.map fun a : ℚ => (a : ℝ)) = Except.ok _ :=
    npGradient_ok (by simpa using h2)
  refine ⟨_, _, _, hsc, htaulen, hg1, hg2, ?_⟩
  simp only [singularity_spectrum, hq, hsc2, hg1, hg2]

/-! Evaluation lemmas for the least-squares slope on two points. -/

lemma olsSlope_pair_const (a b c : ℝ) : olsSlope [a, b] [c, c] = 0 := by
  unfold olsSlope
  have h1 : (([a, b] : List ℝ).length : ℝ) *
      (List.zipWith (fun a b => a * b) [a, b] [c, c]).sum -
      ([a, b] : List ℝ).sum * ([c, c] : List ℝ).sum = 0 := by
    simp
    ring
  rw [h1, zero_div]

lemma olsSlope_pair_diag (a b : ℝ) (h : a ≠ b) : olsSlope [a, b] [a, b] = 1 := by
  unfold olsSlope
  have h2 : (([a, b] : List ℝ).length : ℝ) * (([a, b] : List ℝ).map fun a => a * a).sum -
      ([a, b] : List ℝ).sum * ([a, b] : List ℝ).sum = (a - b) ^ 2 := by
    simp
    ring
  have h1 : (([a, b] : List ℝ).length : ℝ) *
      (List.zipWith (fun a b => a * b) [a, b] [a, b]).sum -
      ([a, b] : List ℝ).sum * ([a, b] : List ℝ).sum = (a - b) ^ 2 := by
    simp
    ring
  rw [h1, h2]
  exact div_self (pow_ne_zero 2 (sub_ne_zero.mpr h))

/-! Concrete inputs shared by witnesses and by the evaluation of the
default-limit divergence of the Slope Estimator. -/

/-- Lag array for the divergence evaluation: 6 strictly increasing ints. -/
def lag5 : List ℕ := [2, 4, 6, 8, 10, 12]

/-- One-column fluctuation matrix for the divergence evaluation: the column
equals the lag over rows 1 and 2 (slope 1 in log-log) and is constant over
rows 4 and 5 (slope 0 in log-log). -/
def m5 : NpMatrix := ⟨[[1], [4], [6], [1], [7], [7]], 1, by decide⟩

/-- Moment orders for the divergence evaluation. -/
def q5 : List NpVal := [NpVal.num 2]

lemma clean_q5 : clean_q q5 = Except.ok [2] := by
  norm_num [q5, clean_q, chkfinite, keepQ, NpVal.isFinite, NpVal.toRat, List.filter]

lemma slopes5_default : slopes lag5 m5 q5 (none, none) 0 =
    Except.ok [olsSlope [Real.log 10, Real.log 12] [Real.log 7, Real.log 7]] := by
  have hfit := fitSlopes_of_clean lag5 m5 (some 4, some 8) clean_q5 (by rfl)
  have hs : slopes lag5 m5 q5 (none, none) 0 = fitSlopes lag5 m5 q5 (some 4, some 8) := by
    rw [slopes]
    norm_num [lag5]
  rw [hs, hfit]
  have ht : Int.toNat 4 = 4 := rfl
  norm_num [pySlice, pyIndexNorm, lag5, m5, List.range_succ, ht]

lemma slopes5_explicit : slopes lag5 m5 q5 (some 1, some ((lag5.length / 2 : ℕ) : ℤ)) 0 =
    Except.ok [olsSlope [Real.log 4, Real.log 6] [Real.log 4, Real.log 6]] := by
  have hfit := fitSlopes_of_clean lag5 m5 (some 1, some ((lag5.length / 2 : ℕ) : ℤ))
    clean_q5 (by rfl)
  rw [slopes_of_ne_both_none (by simp) lag5 m5 q5 0, hfit]
  have ht : Int.toNat 3 = 3 := rfl
  norm_num [pySlice, pyIndexNorm, lag5, m5, List.range_succ, ht]

/-! Error propagation helpers. -/

lemma scaling_exponents_dom {lag : List ℕ} {M : NpMatrix} {q : List NpVal}
    {lim : Option ℤ × Option ℤ} {itp : ℤ}
    (h : clean_q q = Except.error Err.domainError) :
    scaling_exponents lag M q lim itp = Except.error Err.domainError := by
  simp only [scaling_exponents, h]

lemma hurst_exponents_dom {lag : List ℕ} {M : NpMatrix} {q : List NpVal}
    {lim : Option ℤ × Option ℤ} {itp : ℤ}
    (h : clean_q q = Except.error Err.domainError) :
    hurst_exponents lag M q lim itp = Except.error Err.domainError := by
  simp only [hurst_exponents, h]

lemma singularity_spectrum_dom {lag : List ℕ} {M : NpMatrix} {q : List NpVal}
    {lim : Option ℤ × Option ℤ} {itp : ℤ}
    (h : clean_q q = Except.error Err.domainError) :
    singularity_spectrum lag M q lim itp = Except.error Err.domainError := by
  simp only [singularity_spectrum, h]

lemma scaling_exponents_dimErr (lag : List ℕ) (M : NpMatrix) {q : List NpVal}
    (lim : Option ℤ × Option ℤ) (itp : ℤ) {qc : List ℚ}
    (hq : clean_q q = Except.ok qc) (hd : M.ncols ≠ qc.length) :
    scaling_exponents lag M q lim itp = Except.error Err.dimMismatch := by
  have hf := fitSlopes_dimErr lag M (defaultLim lag lim) (clean_q_idem hq) hd
  simp only [scaling_exponents, hq, slopes_defaultLim, hf]

lemma hurst_exponents_dimErr {lag : List ℕ} {M : NpMatrix} {q : List NpVal}
    {lim : Option ℤ × Option ℤ} {itp : ℤ} {qc : List ℚ}
    (hq : clean_q q = Except.ok qc) (hd : M.ncols ≠ qc.length) :
    hurst_exponents lag M q lim itp = Except.error Err.dimMismatch := by
  have hf := fitSlopes_dimErr lag M (defaultLim lag lim) (clean_q_idem hq) hd
  simp only [hurst_exponents, hq, slopes_defaultLim, hf]

lemma singularity_spectrum_dimErr {lag : List ℕ} {M : NpMatrix} {q : List NpVal}
    {lim : Option ℤ × Option ℤ} {itp : ℤ} {qc : List ℚ}
    (hq : clean_q q = Except.ok qc) (hd : M.ncols ≠ qc.length) :
    singularity_spectrum lag M q lim itp = Except.error Err.dimMismatch := by
  have hsc := scaling_exponents_dimErr lag M (defaultLim lag lim) itp (clean_q_idem hq) hd
  simp only [singularity_spectrum, hq, hsc]

lemma singularity_spectrum_gradErr {lag : List ℕ} {M : NpMatrix} {q : List NpVal}
    {lim : Option ℤ × Option ℤ} {itp : ℤ} {qc : List ℚ}
    (hq : clean_q q = Except.ok qc) (hd : M.ncols = qc.length)
    (hlen : qc.length < 2) :
    singularity_spectrum lag M q lim itp = Except.error Err.gradientError := by
  obtain ⟨s2, hs2, hs2len, hsc2⟩ :=
    scaling_exponents_spec lag M (defaultLim lag lim) itp (clean_q_idem hq) hd
  have htau : (List.zipWith (fun (a : ℚ) (h : ℝ) => (a : ℝ) * h - 1) qc s2).length < 2 := by
    rw [List.length_zipWith]
    omega
  have hg := npGradient_err htau
  simp only [singularity_spectrum, hq, hsc2, hg]

lemma singularity_not_dimErr {lag : List ℕ} {M : NpMatrix} {q : List NpVal}
    {lim : Option ℤ × Option ℤ} {itp : ℤ} {qc : List ℚ}
    (hq : clean_q q = Except.ok qc) (hd : M.ncols = qc.length) :
    singularity_spectrum lag M q lim itp ≠ Except.error Err.dimMismatch := by
  by_cases hl : 2 ≤ qc.length
  · obtain ⟨tau, gt, gq2, hsc, htlen, hgt, hgq, hss⟩ := singularity_spectrum_spec hq hd hl
    rw [hss]
    simp
  · rw [singularity_spectrum_gradErr hq hd (by omega)]
    simp

lemma singularity_not_domErr {lag : List ℕ} {M : NpMatrix} {q : List NpVal}
    {lim : Option ℤ × Option ℤ} {itp : ℤ} {qc : List ℚ}
    (hq : clean_q q = Except.ok qc) :
    singularity_spectrum lag M q lim itp ≠ Except.error Err.domainError := by
  by_cases hd : M.ncols = qc.length
  · by_cases hl : 2 ≤ qc.length
    · obtain ⟨tau, gt, gq2, hsc, htlen, hgt, hgq, hss⟩ := singularity_spectrum_spec hq hd hl
      rw [hss]
      simp
    · rw [singularity_spectrum_gradErr hq hd (by omega)]
      simp
  · rw [singularity_spectrum_dimErr hq hd]
    simp

lemma scaling_not_domErr {lag : List ℕ} {M : NpMatrix} {q : List NpVal}
    {lim : Option ℤ × Option ℤ} {itp : ℤ} {qc : List ℚ}
    (hq : clean_q q = Except.ok qc) :
    scaling_exponents lag M q lim itp ≠ Except.error Err.domainError := by
  by_cases hd : M.ncols = qc.length
  · obtain ⟨s, hs, hslen, hsc⟩ := scaling_exponents_spec lag M lim itp hq hd
    rw [hsc]
    simp
  · rw [scaling_exponents_dimErr lag M lim itp hq hd]
    simp

lemma hurst_not_domErr {lag : List ℕ} {M : NpMatrix} {q : List NpVal}
    {lim : Option ℤ × Option ℤ} {itp : ℤ} {qc : List ℚ}
    (hq : clean_q q = Except.ok qc) :
    hurst_exponents lag M q lim itp ≠ Except.error Err.domainError := by
  by_cases hd : M.ncols = qc.length
  · obtain ⟨s, hs, hslen, hsc⟩ := hurst_exponents_spec lag M lim itp hq hd
    rw [hsc]
    simp
  · rw [hurst_exponents_dimErr hq hd]
    simp

lemma clean_q_ok_of_all_finite {q : List NpVal} (hb : q.all NpVal.isFinite = true) :
    clean_q q = Except.ok ((q.filterMap NpVal.toRat).filter keepQ) := by
  rw [clean_q_eq_ite, if_pos hb]

/-! The keep-predicate of the cleaner agrees with the absolute-value reading. -/

lemma keepQ_eq_abs (x : ℚ) : keepQ x = decide ((1 / 10 : ℚ) < |x|) := by
  have h : ((1 / 10 : ℚ) < |x|) ↔ (x < -(1 / 10) ∨ (1 / 10 : ℚ) < x) := by
    rw [lt_abs]
    constructor
    · rintro (h1 | h1)
      · exact Or.inr h1
      · exact Or.inl (by linarith)
    · rintro (h1 | h1)
      · exact Or.inr (by linarith)
      · exact Or.inl h1
  rw [keepQ, decide_eq_decide.mpr h, Bool.decide_or]

/-! A missing lower slice bound is the same as an explicit 0. -/

lemma pySlice_none_zero {α : Type} (xs : List α) (hi : Option ℤ) :
    pySlice xs none hi = pySlice xs (some 0) hi := by
  simp [pySlice, pyIndexNorm]

lemma fitSlopes_none_zero (lag : List ℕ) (M : NpMatrix) (q : List NpVal) (k : ℤ) :
    fitSlopes lag M q (none, some k) = fitSlopes lag M q (some 0, some k) := by
  simp only [fitSlopes, pySlice_none_zero]

lemma slopes_none_zero (lag : List ℕ) (M : NpMatrix) (q : List NpVal) (k : ℤ) (itp : ℤ) :
    slopes lag M q (none, some k) itp = slopes lag M q (some 0, some k) itp := by
  rw [slopes_of_ne_both_none (by simp) lag M q itp,
    slopes_of_ne_both_none (by simp) lag M q itp, fitSlopes_none_zero]

lemma scaling_none_zero (lag : List ℕ) (M : NpMatrix) (q : List NpVal) (k : ℤ) (itp : ℤ) :
    scaling_exponents lag M q (none, some k) itp =
      scaling_exponents lag M q (some 0, some k) itp := by
  simp only [scaling_exponents, defaultLim, slopes_none_zero]

lemma hurst_none_zero (lag : List ℕ) (M : NpMatrix) (q : List NpVal) (k : ℤ) (itp : ℤ) :
    hurst_exponents lag M q (none, some k) itp =
      hurst_exponents lag M q (some 0, some k) itp := by
  simp only [hurst_exponents, defaultLim, slopes_none_zero]

lemma singularity_none_zero (lag : List ℕ) (M : NpMatrix) (q : List NpVal) (k : ℤ) (itp : ℤ) :
    singularity_spectrum lag M q (none, some k) itp =
      singularity_spectrum lag M q (some 0, some k) itp := by
  simp only [singularity_spectrum, defaultLim, scaling_none_zero]

/-! Claim theorems. -/

/-- C4: the moment-order cleaner removes exactly the values v with
abs v <= 0.1 (it keeps v < -0.1 or v > 0.1), preserves the relative order of
the survivors (it is a filter), and returns a flat sequence of floats;
cleaning [-10, -0.05, 0.05, 10] yields exactly [-10, 10], and an input with
no value of absolute value at most 0.1 is returned unchanged. -/
theorem C4_clean_q_threshold (q : List ℚ) :
    clean_q (q.map NpVal.num) =
      Except.ok (q.filter fun x => decide ((1 / 10 : ℚ) < |x|)) ∧
    clean_q [NpVal.num (-10), NpVal.num (-(1/20)), NpVal.num (1/20), NpVal.num 10] =
      Except.ok [-10, 10] ∧
    ((∀ x ∈ q, (1 / 10 : ℚ) < |x|) → clean_q (q.map NpVal.num) = Except.ok q) := by
  refine ⟨?_, ?_, ?_⟩
  · rw [clean_q_map_num]
    congr 1
    exact List.filter_congr fun x _ => keepQ_eq_abs x
  · norm_num [clean_q, chkfinite, keepQ, NpVal.isFinite, NpVal.toRat, List.filter]
  · intro hall
    rw [clean_q_map_num]
    congr 1
    exact List.filter_eq_self.mpr fun x hx =>
      (keepQ_eq_abs x).trans (decide_eq_true (hall x hx))

/-- C5 (evaluation at the failing input): called directly with both limits
unset, the Slope Estimator substitutes [lag[1], lag[lag.size // 2]] = [4, 8]
(lag VALUES used as slice indices) and fits over lag[4:8] = [10, 12], while
the documented default range [1, lag.size // 2] = [1, 3] fits over
lag[1:3] = [4, 6]; on this input the two fits give slopes 0 and 1, so the
two calls disagree, although the three public operations do substitute the
documented range. -/
theorem C5_slopes_default_lim_bug :
    scaling_exponents lag5 m5 q5 (none, none) 0 =
      scaling_exponents lag5 m5 q5 (some 1, some ((lag5.length / 2 : ℕ) : ℤ)) 0 ∧
    slopes lag5 m5 q5 (none, none) 0 ≠
      slopes lag5 m5 q5 (some 1, some ((lag5.length / 2 : ℕ) : ℤ)) 0 := by
  constructor
  · rfl
  · have hne : Real.log 4 ≠ Real.log 6 :=
      ne_of_lt (Real.log_lt_log (by norm_num) (by norm_num))
    rw [slopes5_default, slopes5_explicit, olsSlope_pair_const,
      olsSlope_pair_diag _ _ hne]
    simp

/-- C8: the interpolate parameter has no observable effect on any of the
four operations. -/
theorem C8_interpolate_noop (lag : List ℕ) (M : NpMatrix) (q : List NpVal)
    (lim : Option ℤ × Option ℤ) (i1 i2 : ℤ) :
    slopes lag M q lim i1 = slopes lag M q lim i2 ∧
    scaling_exponents lag M q lim i1 = scaling_exponents lag M q lim i2 ∧
    hurst_exponents lag M q lim i1 = hurst_exponents lag M q lim i2 ∧
    singularity_spectrum lag M q lim i1 = singularity_spectrum lag M q lim i2 :=
  ⟨rfl, rfl, rfl, rfl⟩

/-- C9: the moment-order cleaner is idempotent: feeding its own output back
gives the same result as one application (stated through bind so that it
also covers failing inputs). -/
theorem C9_clean_q_idempotent (q : List NpVal) :
    Except.bind (clean_q q) (fun c => clean_q (c.map NpVal.num)) = clean_q q := by
  cases hc : clean_q q with
  | error e => rfl
  | ok qc =>
      show clean_q (qc.map NpVal.num) = Except.ok qc
      exact clean_q_idem hc

/-- C10: when exactly one limit is None the default is not substituted and
the pair is used directly as Python slice bounds; in particular a None lower
bound slices from index 0, for all four operations. -/
theorem C10_partial_lim_no_default (lag : List ℕ) (M : NpMatrix) (q : List NpVal)
    (itp : ℤ) (j k : ℤ) :
    defaultLim lag (none, some k) = (none, some k) ∧
    defaultLim lag (some j, none) = (some j, none) ∧
    pySlice lag none (some k) = pySlice lag (some 0) (some k) ∧
    slopes lag M q (none, some k) itp = slopes lag M q (some 0, some k) itp ∧
    scaling_exponents lag M q (none, some k) itp =
      scaling_exponents lag M q (some 0, some k) itp ∧
    hurst_exponents lag M q (none, some k) itp =
      hurst_exponents lag M q (some 0, some k) itp ∧
    singularity_spectrum lag M q (none, some k) itp =
      singularity_spectrum lag M q (some 0, some k) itp :=
  ⟨rfl, rfl, pySlice_none_zero lag (some k), slopes_none_zero lag M q k itp,
    scaling_none_zero lag M q k itp, hurst_none_zero lag M q k itp,
    singularity_none_zero lag M q k itp⟩

/-- C7: the cleaner fails with the domain error exactly when some
moment-order entry is non-finite, and the three public operations (which
clean q before any fitting) surface exactly the same domain error; an
all-finite input never produces it. -/
theorem C7_domain_error_nonfinite (lag : List ℕ) (M : NpMatrix)
    (limP : Option ℤ × Option ℤ) (itp : ℤ) (q : List NpVal) :
    (clean_q q = Except.error Err.domainError ↔ q.all NpVal.isFinite = false) ∧
    (scaling_exponents lag M q limP itp = Except.error Err.domainError ↔
      q.all NpVal.isFinite = false) ∧
    (hurst_exponents lag M q limP itp = Except.error Err.domainError ↔
      q.all NpVal.isFinite = false) ∧
    (singularity_spectrum lag M q limP itp = Except.error Err.domainError ↔
      q.all NpVal.isFinite = false) := by
  by_cases hb : q.all NpVal.isFinite = false
  · have hdom := (clean_q_domainError_iff q).mpr hb
    exact ⟨clean_q_domainError_iff q,
      iff_of_true (scaling_exponents_dom hdom) hb,
      iff_of_true (hurst_exponents_dom hdom) hb,
      iff_of_true (singularity_spectrum_dom hdom) hb⟩
  · have hbt : q.all NpVal.isFinite = true := by
      cases h2 : q.all NpVal.isFinite
      · exact absurd h2 hb
      · rfl
    have hok := clean_q_ok_of_all_finite hbt
    exact ⟨clean_q_domainError_iff q,
      iff_of_false (scaling_not_domErr hok) hb,
      iff_of_false (hurst_not_domErr hok) hb,
      iff_of_false (singularity_not_domErr hok) hb⟩

/-- C6: with a fit range that does not trigger the default substitution, the
Slope Estimator fails with the dimension-mismatch error exactly when the
column count of the fluctuation matrix differs from the length of the
cleaned q, succeeds whenever they agree, and the three public operations
surface exactly the same dimension-mismatch error. -/
theorem C6_dimension_mismatch (lag : List ℕ) (M : NpMatrix) (q : List NpVal)
    (lim limP : Option ℤ × Option ℤ) (itp : ℤ) (qc : List ℚ)
    (hq : clean_q q = Except.ok qc) (hlim : lim ≠ (none, none)) :
    (slopes lag M q lim itp = Except.error Err.dimMismatch ↔ M.ncols ≠ qc.length) ∧
    ((∃ v, slopes lag M q lim itp = Except.ok v) ↔ M.ncols = qc.length) ∧
    (scaling_exponents lag M q limP itp = Except.error Err.dimMismatch ↔
      M.ncols ≠ qc.length) ∧
    (hurst_exponents lag M q limP itp = Except.error Err.dimMismatch ↔
      M.ncols ≠ qc.length) ∧
    (singularity_spectrum lag M q limP itp = Except.error Err.dimMismatch ↔
      M.ncols ≠ qc.length) := by
  rw [slopes_of_ne_both_none hlim]
  by_cases hd : M.ncols = qc.length
  · rw [fitSlopes_of_clean lag M lim hq hd]
    obtain ⟨s, hs, hslen, hsc⟩ := scaling_exponents_spec lag M limP itp hq hd
    obtain ⟨s2, hs2, hs2len, hh⟩ := hurst_exponents_spec lag M limP itp hq hd
    have hR : ¬(M.ncols ≠ qc.length) := by simpa using hd
    exact ⟨iff_of_false (by simp) hR, iff_of_true ⟨_, rfl⟩ hd,
      iff_of_false (by rw [hsc]; simp) hR,
      iff_of_false (by rw [hh]; simp) hR,
      iff_of_false (singularity_not_dimErr hq hd) hR⟩
  · rw [fitSlopes_dimErr lag M lim hq hd]
    refine ⟨iff_of_true rfl hd, iff_of_false ?_ hd,
      iff_of_true (scaling_exponents_dimErr lag M limP itp hq hd) hd,
      iff_of_true (hurst_exponents_dimErr hq hd) hd,
      iff_of_true (singularity_spectrum_dimErr hq hd) hd⟩
    rintro ⟨v, hv⟩
    exact Except.noConfusion hv

/-- C1: whenever the cleaning and dimension checks pass, scaling_exponents
returns the pair (cleaned q, tau) with tau = q * h - 1 element-wise, h being
the slopes of the Slope Estimator for the same lag, matrix, q and effective
fit range, in the same order, and the returned q and tau have equal
lengths. -/
theorem C1_scaling_exponents_pair (lag : List ℕ) (M : NpMatrix) (q : List NpVal)
    (lim : Option ℤ × Option ℤ) (itp : ℤ) (qc : List ℚ)
    (hq : clean_q q = Except.ok qc) (hdim : M.ncols = qc.length) :
    ∃ h : List ℝ, slopes lag M q (defaultLim lag lim) itp = Except.ok h ∧
      scaling_exponents lag M q lim itp =
        Except.ok (qc, List.zipWith (fun (a : ℚ) (hh : ℝ) => (a : ℝ) * hh - 1) qc h) ∧
      h.length = qc.length ∧
      (List.zipWith (fun (a : ℚ) (hh : ℝ) => (a : ℝ) * hh - 1) qc h).length = qc.length := by
  obtain ⟨s, hs, hslen, hsc⟩ := scaling_exponents_spec lag M lim itp hq hdim
  exact ⟨s, hs, hsc, hslen, by rw [List.length_zipWith]; omega⟩

/-! Concrete inputs for the witnesses. -/

/-- Lag array for the witnesses: 4 strictly increasing ints. -/
def lagW : List ℕ := [2, 4, 6, 8]

/-- Two-column fluctuation matrix with 4 rows of positive entries. -/
def mW : NpMatrix := ⟨[[1, 1], [2, 3], [3, 5], [4, 7]], 2, by decide⟩

/-- Moment orders for the witnesses; cleaning keeps both entries. -/
def qW : List NpVal := [NpVal.num (-2), NpVal.num 2]

lemma clean_qW : clean_q qW = Except.ok [-2, 2] := by
  norm_num [qW, clean_q, chkfinite, keepQ, NpVal.isFinite, NpVal.toRat, List.filter]

/-- Witness for C1 at a concrete input. -/
theorem C1_scaling_exponents_pair_witness :
    ∃ h : List ℝ, slopes lagW mW qW (defaultLim lagW (none, none)) 0 = Except.ok h ∧
      scaling_exponents lagW mW qW (none, none) 0 =
        Except.ok (([-2, 2] : List ℚ),
          List.zipWith (fun (a : ℚ) (hh : ℝ) => (a : ℝ) * hh - 1) [-2, 2] h) ∧
      h.length = ([-2, 2] : List ℚ).length ∧
      (List.zipWith (fun (a : ℚ) (hh : ℝ) => (a : ℝ) * hh - 1) [-2, 2] h).length =
        ([-2, 2] : List ℚ).length :=
  C1_scaling_exponents_pair lagW mW qW (none, none) 0 [-2, 2] clean_qW rfl

/-- Witness for C6 at a concrete input. -/
theorem C6_dimension_mismatch_witness :
    (slopes lagW mW qW (some 1, some 2) 0 = Except.error Err.dimMismatch ↔
      mW.ncols ≠ ([-2, 2] : List ℚ).length) ∧
    ((∃ v, slopes lagW mW qW (some 1, some 2) 0 = Except.ok v) ↔
      mW.ncols = ([-2, 2] : List ℚ).length) ∧
    (scaling_exponents lagW mW qW (none, none) 0 = Except.error Err.dimMismatch ↔
      mW.ncols ≠ ([-2, 2] : List ℚ).length) ∧
    (hurst_exponents lagW mW qW (none, none) 0 = Except.error Err.dimMismatch ↔
      mW.ncols ≠ ([-2, 2] : List ℚ).length) ∧
    (singularity_spectrum lagW mW qW (none, none) 0 = Except.error Err.dimMismatch ↔
      mW.ncols ≠ ([-2, 2] : List ℚ).length) :=
  C6_dimension_mismatch lagW mW qW (some 1, some 2) (none, none) 0 [-2, 2]
    clean_qW (by simp)

lemma div_half_div_half (a b : ℝ) : (a / 2) / (b / 2) = a / b := by
  rcases eq_or_ne b 0 with hb | hb
  · simp [hb]
  · field_simp

lemma npGradient_ok_length {y g : List ℝ} (h : npGradient y = Except.ok g) :
    g.length = y.length := by
  by_cases h2 : y.length < 2
  · rw [npGradient_err h2] at h
    exact Except.noConfusion h
  · have he := npGradient_ok (show 2 ≤ y.length by omega)
    rw [he] at h
    rw [← Except.ok.inj h]
    simp

lemma npGradient_ok_eq {y g : List ℝ} (h2 : 2 ≤ y.length)
    (h : npGradient y = Except.ok g) :
    g = (List.range y.length).map fun i =>
      if i = 0 then y.getD 1 0 - y.getD 0 0
      else if i = y.length - 1 then y.getD i 0 - y.getD (i - 1) 0
      else (y.getD (i + 1) 0 - y.getD (i - 1) 0) / 2 := by
  have he := npGradient_ok h2
  rw [h] at he
  exact Except.ok.inj he

lemma grad_quot_getD_left {y z gy gz : List ℝ} (hyz : y.length = z.length)
    (h2 : 2 ≤ y.length)
    (hgy : npGradient y = Except.ok gy) (hgz : npGradient z = Except.ok gz) :
    (List.zipWith (fun a b => a / b) gy gz).getD 0 0 =
      (y.getD 1 0 - y.getD 0 0) / (z.getD 1 0 - z.getD 0 0) := by
  rw [npGradient_ok_eq h2 hgy, npGradient_ok_eq (by omega) hgz]
  rw [getD_zipWith _ _ _ 0 (by simp; omega) (by simp; omega)]
  rw [getD_range_map _ _ _ (by omega), getD_range_map _ _ _ (by omega)]
  simp

lemma grad_quot_getD_right {y z gy gz : List ℝ} (hyz : y.length = z.length)
    (h2 : 2 ≤ y.length)
    (hgy : npGradient y = Except.ok gy) (hgz : npGradient z = Except.ok gz) :
    (List.zipWith (fun a b => a / b) gy gz).getD (y.length - 1) 0 =
      (y.getD (y.length - 1) 0 - y.getD (y.length - 2) 0) /
        (z.getD (y.length - 1) 0 - z.getD (y.length - 2) 0) := by
  rw [npGradient_ok_eq h2 hgy, npGradient_ok_eq (by omega) hgz]
  rw [getD_zipWith _ _ _ (y.length - 1) (by simp; omega) (by simp; omega)]
  rw [getD_range_map _ _ _ (by omega), getD_range_map _ _ _ (by omega)]
  have hs : y.length - 1 - 1 = y.length - 2 := by omega
  rw [if_neg (by omega), if_pos rfl, if_neg (by omega), if_pos (by omega), hs]

lemma grad_quot_getD_interior {y z gy gz : List ℝ} (hyz : y.length = z.length)
    (hgy : npGradient y = Except.ok gy) (hgz : npGradient z = Except.ok gz)
    (i : ℕ) (h0 : 0 < i) (hl : i + 1 < y.length) :
    (List.zipWith (fun a b => a / b) gy gz).getD i 0 =
      (y.getD (i + 1) 0 - y.getD (i - 1) 0) / (z.getD (i + 1) 0 - z.getD (i - 1) 0) := by
  rw [npGradient_ok_eq (by omega) hgy, npGradient_ok_eq (by omega) hgz]
  rw [getD_zipWith _ _ _ i (by simp; omega) (by simp; omega)]
  rw [getD_range_map _ _ _ (by omega), getD_range_map _ _ _ (by omega)]
  rw [if_neg (by omega), if_neg (by omega), if_neg (by omega), if_neg (by omega)]
  exact div_half_div_half _ _

/-- C2: in singularity_spectrum the singularity strength alpha is the
quotient of the two unit-spacing numerical gradients, which equals the
claimed difference quotients of tau against the cleaned q: central
differences at interior indices and one-sided differences at the two
endpoints, whenever the cleaned q has at least 2 entries. -/
theorem C2_alpha_gradient (lag : List ℕ) (M : NpMatrix) (q : List NpVal)
    (lim : Option ℤ × Option ℤ) (itp : ℤ) (qc : List ℚ)
    (hq : clean_q q = Except.ok qc) (hdim : M.ncols = qc.length)
    (h2 : 2 ≤ qc.length) :
    ∃ alpha f tau : List ℝ,
      scaling_exponents lag M q lim itp = Except.ok (qc, tau) ∧
      singularity_spectrum lag M q lim itp = Except.ok (alpha, f) ∧
      alpha.length = qc.length ∧
      (∀ i, 0 < i → i + 1 < qc.length →
        alpha.getD i 0 = (tau.getD (i + 1) 0 - tau.getD (i - 1) 0) /
          (((qc.getD (i + 1) 0 : ℚ) : ℝ) - ((qc.getD (i - 1) 0 : ℚ) : ℝ))) ∧
      alpha.getD 0 0 = (tau.getD 1 0 - tau.getD 0 0) /
        (((qc.getD 1 0 : ℚ) : ℝ) - ((qc.getD 0 0 : ℚ) : ℝ)) ∧
      alpha.getD (qc.length - 1) 0 =
        (tau.getD (qc.length - 1) 0 - tau.getD (qc.length - 2) 0) /
          (((qc.getD (qc.length - 1) 0 : ℚ) : ℝ) - ((qc.getD (qc.length - 2) 0 : ℚ) : ℝ)) := by
  obtain ⟨tau, gt, gq2, hsc, htlen, hgt, hgq, hss⟩ := singularity_spectrum_spec hq hdim h2
  have hqR : (qc.map fun a : ℚ => (a : ℝ)).length = qc.length := by simp
  have hyz : tau.length = (qc.map fun a : ℚ => (a : ℝ)).length := by rw [hqR, htlen]
  refine ⟨_, _, tau, hsc, hss, ?_, ?_, ?_, ?_⟩
  · rw [List.length_zipWith, npGradient_ok_length hgt, npGradient_ok_length hgq,
      hqR, htlen]
    exact min_self _
  · intro i h0 h1
    have hi := grad_quot_getD_interior hyz hgt hgq i h0 (by omega)
    rw [hi, getD_map_ratCast qc (i + 1) (by omega), getD_map_ratCast qc (i - 1) (by omega)]
  · have hi := grad_quot_getD_left hyz (by omega) hgt hgq
    rw [hi, getD_map_ratCast qc 1 (by omega), getD_map_ratCast qc 0 (by omega)]
  · have hi := grad_quot_getD_right hyz (by omega) hgt hgq
    rw [htlen] at hi
    rw [hi, getD_map_ratCast qc (qc.length - 1) (by omega),
      getD_map_ratCast qc (qc.length - 2) (by omega)]

/-- C3: _falpha computes f = q * alpha - tau element-wise for equal-length
inputs, and the pair (alpha, f) returned by singularity_spectrum each have
the length of the cleaned q used internally. -/
theorem C3_falpha_legendre (lag : List ℕ) (M : NpMatrix) (q : List NpVal)
    (lim : Option ℤ × Option ℤ) (itp : ℤ) (qc : List ℚ)
    (tauX alphaX qX : List ℝ)
    (hq : clean_q q = Except.ok qc) (hdim : M.ncols = qc.length)
    (h2 : 2 ≤ qc.length)
    (hl1 : tauX.length = qX.length) (hl2 : alphaX.length = qX.length) :
    (falpha tauX alphaX qX).length = qX.length ∧
    (∀ i, i < qX.length →
      (falpha tauX alphaX qX).getD i 0 =
        qX.getD i 0 * alphaX.getD i 0 - tauX.getD i 0) ∧
    ∃ alpha f : List ℝ,
      singularity_spectrum lag M q lim itp = Except.ok (alpha, f) ∧
      alpha.length = qc.length ∧ f.length = qc.length := by
  refine ⟨?_, ?_, ?_⟩
  · rw [falpha, List.length_zipWith, List.length_zipWith]
    omega
  · intro i hi
    rw [falpha]
    rw [getD_zipWith _ _ _ i (by rw [List.length_zipWith]; omega) (by omega)]
    rw [getD_zipWith _ _ _ i (by omega) (by omega)]
  · obtain ⟨tau, gt, gq2, hsc, htlen, hgt, hgq, hss⟩ :=
      singularity_spectrum_spec hq hdim h2
    have hqR : (qc.map fun a : ℚ => (a : ℝ)).length = qc.length := by simp
    have hgtl := npGradient_ok_length hgt
    have hgql := npGradient_ok_length hgq
    have hal : (List.zipWith (fun a b => a / b) gt gq2).length = qc.length := by
      rw [List.length_zipWith]
      omega
    refine ⟨_, _, hss, hal, ?_⟩
    rw [falpha, List.length_zipWith, List.length_zipWith, hal, hqR, htlen]
    omega

/-- Witness for C2 at a concrete input. -/
theorem C2_alpha_gradient_witness :
    ∃ alpha f tau : List ℝ,
      scaling_exponents lagW mW qW (none, none) 0 =
        Except.ok (([-2, 2] : List ℚ), tau) ∧
      singularity_spectrum lagW mW qW (none, none) 0 = Except.ok (alpha, f) ∧
      alpha.length = ([-2, 2] : List ℚ).length ∧
      (∀ i, 0 < i → i + 1 < ([-2, 2] : List ℚ).length →
        alpha.getD i 0 = (tau.getD (i + 1) 0 - tau.getD (i - 1) 0) /
          (((([-2, 2] : List ℚ).getD (i + 1) 0 : ℚ) : ℝ) -
            ((([-2, 2] : List ℚ).getD (i - 1) 0 : ℚ) : ℝ))) ∧
      alpha.getD 0 0 = (tau.getD 1 0 - tau.getD 0 0) /
        (((([-2, 2] : List ℚ).getD 1 0 : ℚ) : ℝ) -
          ((([-2, 2] : List ℚ).getD 0 0 : ℚ) : ℝ)) ∧
      alpha.getD (([-2, 2] : List ℚ).length - 1) 0 =
        (tau.getD (([-2, 2] : List ℚ).length - 1) 0 -
            tau.getD (([-2, 2] : List ℚ).length - 2) 0) /
          (((([-2, 2] : List ℚ).getD (([-2, 2] : List ℚ).length - 1) 0 : ℚ) : ℝ) -
            ((([-2, 2] : List ℚ).getD (([-2, 2] : List ℚ).length - 2) 0 : ℚ) : ℝ)) :=
  C2_alpha_gradient lagW mW qW (none, none) 0 [-2, 2] clean_qW rfl (by simp)

/-- Witness for C3 at a concrete input. -/
theorem C3_falpha_legendre_witness :
    (falpha [1, 2] [3, 4] [5, 6]).length = ([5, 6] : List ℝ).length ∧
    (∀ i, i < ([5, 6] : List ℝ).length →
      (falpha [1, 2] [3, 4] [5, 6]).getD i 0 =
        ([5, 6] : List ℝ).getD i 0 * ([3, 4] : List ℝ).getD i 0 -
          ([1, 2] : List ℝ).getD i 0) ∧
    ∃ alpha f : List ℝ,
      singularity_spectrum lagW mW qW (none, none) 0 = Except.ok (alpha, f) ∧
      alpha.length = ([-2, 2] : List ℚ).length ∧
      f.length = ([-2, 2] : List ℚ).length :=
  C3_falpha_legendre lagW mW qW (none, none) 0 [-2, 2] [1, 2] [3, 4] [5, 6]
    clean_qW rfl (by simp) (by simp) (by simp)

/-- Witness for C4 at a concrete input. -/
theorem C4_clean_q_threshold_witness :
    clean_q (([-5, 7] : List ℚ).map NpVal.num) =
      Except.ok (([-5, 7] : List ℚ).filter fun x => decide ((1 / 10 : ℚ) < |x|)) ∧
    clean_q [NpVal.num (-10), NpVal.num (-(1/20)), NpVal.num (1/20), NpVal.num 10] =
      Except.ok [-10, 10] ∧
    ((∀ x ∈ ([-5, 7] : List ℚ), (1 / 10 : ℚ) < |x|) →
      clean_q (([-5, 7] : List ℚ).map NpVal.num) = Except.ok [-5, 7]) :=
  C4_clean_q_threshold [-5, 7]

end MFDFA
